import Mathlib

/-!
Verification of the weave-vscode extension against its specification.

The definitions below are a shallow embedding of the TypeScript sources:
- `src/assistant/weaveAssistant.ts` (prompt composition, initialize/dispose,
  the transport call `callWeaveAPI`),
- `src/providers/completionProvider.ts` and `src/providers/codeLensProvider.ts`
  (the completion and code-lens providers, including the regex scanner),
- `src/commands/commandHandler.ts` (command dispatch, precondition checks,
  panel/message effects, inline-hints toggle).

Host-editor inputs (active editor, selection, cancellation token, word under
the cursor) and the network outcome are passed as explicit parameters; the
user-visible side effects of a command are collected into a trace of
`Effect` values in the order the code performs them.
-/

namespace Weave

/-- Code context captured per operation (interface WeaveCodeContext). -/
structure WeaveCodeContext where
  code : String
  language : String
  fileName : String
  line : Nat
  column : Nat
deriving DecidableEq

/-- Result type tag (field `type` of WeaveAnalysisResult). -/
inductive ResultType
  | analysis
  | suggestion
  | completion
deriving DecidableEq

/-- Details attached to a transport result (the `details` record built in
`callWeaveAPI` of the HTTP-backed assistant). -/
structure ResultDetails where
  tokensUsed : Nat
  cost : Nat
  provider : String
  model : String
deriving DecidableEq

/-- Transport result (interface WeaveAnalysisResult; the host-clock
`timestamp` field is not modelled). -/
structure WeaveAnalysisResult where
  type : ResultType
  content : String
  language : String
  details : ResultDetails
deriving DecidableEq

/-- Holds when `needle` occurs verbatim as a contiguous substring of `haystack`. -/
def containsStr (haystack needle : String) : Prop :=
  needle.data <:+: haystack.data

/-- The fenced block the spec speaks about: a fence opened with three
backticks followed by the language tag, the code, and a closing fence. -/
def codeFence (language code : String) : String :=
  "```" ++ language ++ "\n" ++ code ++ "\n```"

/- Prompt templates, transcribed from WeaveAssistant.  The template literals
are rendered as explicit concatenations; chunk boundaries carry no meaning. -/

/-- System prompt of generatePrompt. -/
def generatePromptSystem : String :=
  "You are an expert at creating optimized prompts for AI models.\nAnalyze the provided code and generate a clear, concise prompt that describes its purpose and functionality."

/-- User prompt of generatePrompt. -/
def generatePromptUser (ctx : WeaveCodeContext) : String :=
  "Analyze this " ++ ctx.language ++
  " code and generate an optimized prompt that describes it:\n\n" ++
  codeFence ctx.language ctx.code ++
  "\n\nGenerate a prompt that:\n1. Clearly describes what the code does\n2. Mentions key inputs and outputs\n3. Includes any important constraints or edge cases\n4. Is concise but complete"

/-- System prompt of analyzeCode. -/
def analyzeCodeSystem : String :=
  "You are a senior software engineer. Provide insightful analysis of code quality,\npotential issues, and improvements."

/-- User prompt of analyzeCode. -/
def analyzeCodeUser (ctx : WeaveCodeContext) : String :=
  "Analyze this " ++ ctx.language ++ " code:\n\n" ++
  codeFence ctx.language ctx.code ++
  "\n\nProvide analysis including:\n1. Code quality assessment\n2. Potential bugs or issues\n3. Performance considerations\n4. Readability and maintainability\n5. Best practice recommendations"

/-- System prompt of suggestOptimization. -/
def suggestOptimizationSystem : String :=
  "You are an expert at optimizing code. Provide specific, actionable optimization suggestions\nwith example improvements where appropriate."

/-- User prompt of suggestOptimization. -/
def suggestOptimizationUser (ctx : WeaveCodeContext) : String :=
  "Suggest optimizations for this " ++ ctx.language ++ " code:\n\n" ++
  codeFence ctx.language ctx.code ++
  "\n\nFor each suggestion:\n1. Explain the current inefficiency\n2. Provide the optimized approach\n3. Show a code example if applicable\n4. Estimate the performance improvement if measurable"

/-- System prompt of generateCompletion. -/
def generateCompletionSystem : String :=
  "You are a code completion expert. Complete the code based on context.\nRespond with only the completion text, no explanations."

/-- JavaScript `String.prototype.split('\n')`: cut at every newline; the
empty string yields one empty part, a trailing newline yields a trailing
empty part. -/
def jsSplitNl (l : List Char) : List String :=
  splitNlAux l []
where
  /-- Accumulates the current part in reverse. -/
  splitNlAux : List Char → List Char → List String
    | [], acc => [String.mk acc.reverse]
    | c :: rest, acc =>
      if c = '\n' then String.mk acc.reverse :: splitNlAux rest []
      else splitNlAux rest (c :: acc)

/-- JavaScript `Array.prototype.join('\n')`. -/
def joinNl : List String → String
  | [] => ""
  | [s] => s
  | s :: rest => s ++ "\n" ++ joinNl rest

/-- The text preceding the cursor line: `context.code.split('\n')` sliced to
the lines strictly before `position.line`, rejoined with newlines. -/
def previousLines (code : String) (posLine : Nat) : String :=
  joinNl ((jsSplitNl code.data).take posLine)

/-- User prompt of generateCompletion (the `complete` operation). -/
def generateCompletionUser (ctx : WeaveCodeContext) (posLine : Nat) : String :=
  "Complete this " ++ ctx.language ++ " code based on context:\n\n" ++
  "```" ++ ctx.language ++ "\n" ++ previousLines ctx.code posLine ++
  "\n|CURSOR_HERE|\n```" ++
  "\n\nProvide a natural completion that fits the code style and logic."

/-- System prompt of generateDocumentation. -/
def generateDocumentationSystem : String :=
  "You are a documentation expert. Generate clear, concise documentation for code."

/-- User prompt of generateDocumentation. -/
def generateDocumentationUser (ctx : WeaveCodeContext) : String :=
  "Generate JSDoc/documentation for this " ++ ctx.language ++ " code:\n\n" ++
  codeFence ctx.language ctx.code ++
  "\n\nInclude description, parameters, return type, and examples where relevant."

/-! ### Transport client (`callWeaveAPI` of the HTTP-backed assistant) -/

/-- The provider setting (ConfigurationManager.getProvider). -/
inductive ProviderKind
  | openai
  | anthropic
  | local
deriving DecidableEq

/-- Render a provider the way the configuration stores it. -/
def ProviderKind.asString : ProviderKind → String
  | .openai => "openai"
  | .anthropic => "anthropic"
  | .local => "local"

/-- The slice of the configuration the assistant reads. -/
structure WeaveConfigView where
  apiKey : String
  provider : ProviderKind
  model : String
deriving DecidableEq

/-- JSON body of a successful, parsed response, projected onto the fields
`callWeaveAPI` reads; a field absent from the body is `none`. -/
structure ApiResponseBody where
  content : Option String
  tokensUsed : Option Nat
  cost : Option Nat
  provider : Option String
  model : Option String
deriving DecidableEq

/-- Modelled from the spec: the outcome of `HTTPClient.post` (from the
external `@weaveai/core` package, not in this repository).  Per the spec the
transport "fails with a generic error when the network call fails, the
endpoint returns non-success, or the body cannot be parsed" — those cases
reject the promise with an error message; otherwise the parsed JSON body is
returned. -/
inductive HttpOutcome
  | networkError (msg : String)
  | httpError (status : Nat) (msg : String)
  | parsed (body : ApiResponseBody)
deriving DecidableEq

/-- The error message carried by a failing transport outcome, if any. -/
def HttpOutcome.failMsg : HttpOutcome → Option String
  | .networkError m => some m
  | .httpError _ m => some m
  | .parsed _ => none

/-- WeaveAssistant.callWeaveAPI of the HTTP-backed variant: a rejection of
the HTTP call propagates as an error; a parsed body is mapped into a
WeaveAnalysisResult, defaulting each absent field (`data.content || ''`,
`data.tokensUsed || 0`, `data.cost || 0`, and configuration fallbacks for
provider and model). -/
def callWeaveAPI (systemPrompt userPrompt : String) (type : ResultType)
    (ctx : WeaveCodeContext) (cfg : WeaveConfigView) (outcome : HttpOutcome) :
    Except String WeaveAnalysisResult :=
  match outcome with
  | .networkError m => .error m
  | .httpError _ m => .error m
  | .parsed body =>
      .ok { type := type
            content := body.content.getD ""
            language := ctx.language
            details :=
              { tokensUsed := body.tokensUsed.getD 0
                cost := body.cost.getD 0
                provider := body.provider.getD cfg.provider.asString
                model := body.model.getD cfg.model } }

/-! ### Assistant lifecycle and operations -/

/-- The mutable state of a WeaveAssistant instance. -/
structure AssistantState where
  isInitialized : Bool
deriving DecidableEq

/-- WeaveAssistant.initialize: requires an API key unless the provider is
`local`; on success the instance becomes initialized, on failure it throws
and the state is unchanged (the caller keeps its old state). -/
def initializeAssistant (cfg : WeaveConfigView) (_st : AssistantState) :
    Except String AssistantState :=
  if cfg.apiKey = "" ∧ cfg.provider ≠ ProviderKind.local then
    .error ("API key not configured for " ++ cfg.provider.asString)
  else
    .ok { isInitialized := true }

/-- WeaveAssistant.dispose: resets the initialized flag. -/
def disposeAssistant (_st : AssistantState) : AssistantState :=
  { isInitialized := false }

/-- Observable side effects of a command or operation, in program order. -/
inductive Effect
  | errorMessage (msg : String)
  | infoMessage (msg : String)
  | transportCall
  | panelCreated (title : String) (content : String)
  | statusBarText (text : String)
deriving DecidableEq

/-- Shared shape of the assistant operations: `ensureInitialized` throws
when the instance is not initialized (no transport call happens); otherwise
exactly one transport call is made with the given prompts. -/
def runAssistantOp (st : AssistantState) (systemPrompt userPrompt : String)
    (type : ResultType) (ctx : WeaveCodeContext) (cfg : WeaveConfigView)
    (outcome : HttpOutcome) : List Effect × Except String WeaveAnalysisResult :=
  if st.isInitialized then
    ([Effect.transportCall],
     callWeaveAPI systemPrompt userPrompt type ctx cfg outcome)
  else
    ([], .error "WeaveAssistant not initialized")

/-- WeaveAssistant.generatePrompt. -/
def assistantGeneratePrompt (st : AssistantState) (ctx : WeaveCodeContext)
    (cfg : WeaveConfigView) (outcome : HttpOutcome) :
    List Effect × Except String WeaveAnalysisResult :=
  runAssistantOp st generatePromptSystem (generatePromptUser ctx)
    ResultType.analysis ctx cfg outcome

/-- WeaveAssistant.analyzeCode. -/
def assistantAnalyzeCode (st : AssistantState) (ctx : WeaveCodeContext)
    (cfg : WeaveConfigView) (outcome : HttpOutcome) :
    List Effect × Except String WeaveAnalysisResult :=
  runAssistantOp st analyzeCodeSystem (analyzeCodeUser ctx)
    ResultType.analysis ctx cfg outcome

/-- WeaveAssistant.suggestOptimization. -/
def assistantSuggestOptimization (st : AssistantState) (ctx : WeaveCodeContext)
    (cfg : WeaveConfigView) (outcome : HttpOutcome) :
    List Effect × Except String WeaveAnalysisResult :=
  runAssistantOp st suggestOptimizationSystem (suggestOptimizationUser ctx)
    ResultType.suggestion ctx cfg outcome

/-- WeaveAssistant.generateCompletion: as the other operations, then
projects the content string out of the result. -/
def assistantGenerateCompletion (st : AssistantState) (ctx : WeaveCodeContext)
    (posLine : Nat) (cfg : WeaveConfigView) (outcome : HttpOutcome) :
    List Effect × Except String String :=
  let r := runAssistantOp st generateCompletionSystem
    (generateCompletionUser ctx posLine) ResultType.completion ctx cfg outcome
  (r.1, r.2.map (fun res => res.content))

/-- WeaveAssistant.generateDocumentation. -/
def assistantGenerateDocumentation (st : AssistantState) (ctx : WeaveCodeContext)
    (cfg : WeaveConfigView) (outcome : HttpOutcome) :
    List Effect × Except String String :=
  let r := runAssistantOp st generateDocumentationSystem
    (generateDocumentationUser ctx) ResultType.analysis ctx cfg outcome
  (r.1, r.2.map (fun res => res.content))

/-! ### Command handler -/

/-- The part of the active editor a command reads. -/
structure EditorState where
  selectionEmpty : Bool
  selectedText : String
  languageId : String
  fileName : String
  selStartLine : Nat
  selStartCol : Nat
deriving DecidableEq

/-- Host environment of a command invocation. -/
structure CommandEnv where
  activeEditor : Option EditorState
deriving DecidableEq

/-- The WeaveCodeContext a command captures from the editor. -/
def capturedContext (ed : EditorState) : WeaveCodeContext :=
  { code := ed.selectedText
    language := ed.languageId
    fileName := ed.fileName
    line := ed.selStartLine
    column := ed.selStartCol }

/-- CommandHandler.generatePrompt.  The success path creates a result panel
and shows an information message offering follow-up actions; the follow-up
(clipboard copy) depends on a later user choice and is outside this model. -/
def commandGeneratePrompt (env : CommandEnv) (st : AssistantState)
    (cfg : WeaveConfigView) (outcome : HttpOutcome) : List Effect :=
  match env.activeEditor with
  | none => [Effect.errorMessage "No active editor"]
  | some ed =>
    if ed.selectionEmpty then
      [Effect.errorMessage "Please select code to generate a prompt for"]
    else
      let r := assistantGeneratePrompt st (capturedContext ed) cfg outcome
      match r.2 with
      | .ok res =>
          r.1 ++ [Effect.panelCreated "Weave: Generated Prompt" res.content,
                  Effect.infoMessage "Prompt generated successfully"]
      | .error msg =>
          r.1 ++ [Effect.errorMessage ("Failed to generate prompt: " ++ msg)]

/-- CommandHandler.analyzeCode. -/
def commandAnalyzeCode (env : CommandEnv) (st : AssistantState)
    (cfg : WeaveConfigView) (outcome : HttpOutcome) : List Effect :=
  match env.activeEditor with
  | none => [Effect.errorMessage "No active editor"]
  | some ed =>
    if ed.selectionEmpty then
      [Effect.errorMessage "Please select code to analyze"]
    else
      let r := assistantAnalyzeCode st (capturedContext ed) cfg outcome
      match r.2 with
      | .ok res =>
          r.1 ++ [Effect.panelCreated "Weave: Code Analysis" res.content]
      | .error msg =>
          r.1 ++ [Effect.errorMessage ("Failed to analyze code: " ++ msg)]

/-- CommandHandler.suggestOptimization. -/
def commandSuggestOptimization (env : CommandEnv) (st : AssistantState)
    (cfg : WeaveConfigView) (outcome : HttpOutcome) : List Effect :=
  match env.activeEditor with
  | none => [Effect.errorMessage "No active editor"]
  | some ed =>
    if ed.selectionEmpty then
      [Effect.errorMessage "Please select code to optimize"]
    else
      let r := assistantSuggestOptimization st (capturedContext ed) cfg outcome
      match r.2 with
      | .ok res =>
          r.1 ++ [Effect.panelCreated "Weave: Optimization Suggestions" res.content]
      | .error msg =>
          r.1 ++ [Effect.errorMessage ("Failed to get suggestions: " ++ msg)]

/-- The CommandHandler state relevant to toggleInlineHints. -/
structure CommandHandlerState where
  inlineHintsEnabled : Bool
deriving DecidableEq

/-- CommandHandler.toggleInlineHints: flips the flag, shows a message and
updates the status bar. -/
def toggleInlineHints (s : CommandHandlerState) :
    CommandHandlerState × List Effect :=
  let enabled := !s.inlineHintsEnabled
  let status := if enabled then "enabled" else "disabled"
  ({ inlineHintsEnabled := enabled },
   [Effect.infoMessage ("Inline hints " ++ status),
    Effect.statusBarText ("Weave $(lightbulb) " ++ status)])

/-- The state transition of one toggleInlineHints invocation. -/
def toggleStep (s : CommandHandlerState) : CommandHandlerState :=
  (toggleInlineHints s).1

/-! ### The code-lens regex scanner

CodeLensProvider scans the document with the JavaScript regular expression
`/^(async\s+)?(function|class)\s+(\w+)/gm` in an `exec` loop.  The matcher
below implements exactly that pattern: `^` with the `m` flag holds at
offset 0 and right after a newline; `\s` is the JavaScript whitespace class;
`\w` is `[A-Za-z0-9_]`; the quantifiers are greedy (maximal munch — for this
pattern the character classes of adjacent elements are disjoint, and the
single alternation and the optional group are tried left first with a
fallback, as the backtracking engine does); the `g` loop resumes searching
at the end of the previous match. -/

/-- JavaScript `\w`. -/
def isWordChar (c : Char) : Bool :=
  ('a' ≤ c && c ≤ 'z') || ('A' ≤ c && c ≤ 'Z') || ('0' ≤ c && c ≤ '9') || c = '_'

/-- JavaScript `\s` (whitespace, line terminators, no-break space, BOM and
the Unicode space separators, by code point). -/
def isSpaceChar (c : Char) : Bool :=
  c = ' ' || c = '\t' || c = '\n' || c = '\x0b' || c = '\x0c' || c = '\r' ||
  c.val = 0xA0 || c.val = 0x1680 ||
  (0x2000 ≤ c.val && c.val ≤ 0x200A) ||
  c.val = 0x2028 || c.val = 0x2029 || c.val = 0x202F || c.val = 0x205F ||
  c.val = 0x3000 || c.val = 0xFEFF

/-- Match a literal, returning the characters after it. -/
def matchLit : List Char → List Char → Option (List Char)
  | [], l => some l
  | _ :: _, [] => none
  | p :: ps, c :: cs => if p = c then matchLit ps cs else none

/-- Drop the maximal run of characters in a class. -/
def skipClass (f : Char → Bool) : List Char → List Char
  | [] => []
  | c :: cs => if f c then skipClass f cs else c :: cs

/-- Match one-or-more characters of a class, greedily. -/
def matchClass1 (f : Char → Bool) : List Char → Option (List Char)
  | [] => none
  | c :: cs => if f c then some (skipClass f cs) else none

/-- Match `kw` then `\s+` then `\w+`. -/
def matchKwTail (kw : List Char) (l : List Char) : Option (List Char) :=
  match matchLit kw l with
  | none => none
  | some r =>
    match matchClass1 isSpaceChar r with
    | none => none
    | some r2 => matchClass1 isWordChar r2

/-- Match `(function|class)\s+\w+`: the engine tries the alternatives left
to right and backtracks to the second when the first fails. -/
def matchTail (l : List Char) : Option (List Char) :=
  match matchKwTail "function".data l with
  | some r => some r
  | none => matchKwTail "class".data l

/-- Match `async\s+` (the body of the optional group). -/
def matchAsyncPart (l : List Char) : Option (List Char) :=
  match matchLit "async".data l with
  | none => none
  | some r => matchClass1 isSpaceChar r

/-- Match `(async\s+)?(function|class)\s+(\w+)` at the head of `l`: the
greedy optional group is tried first; if the rest of the pattern then fails,
the engine retries with the group matching nothing. -/
def matchCore (l : List Char) : Option (List Char) :=
  match matchAsyncPart l with
  | some r =>
    match matchTail r with
    | some r2 => some r2
    | none => matchTail l
  | none => matchTail l

theorem matchLit_length : ∀ p l r, matchLit p l = some r →
    r.length + p.length = l.length := by
  intro p
  induction p with
  | nil => intro l r h; simp [matchLit] at h; simp [h]
  | cons c cs ih =>
    intro l r h
    cases l with
    | nil => simp [matchLit] at h
    | cons d ds =>
      simp only [matchLit] at h
      split at h
      · have := ih ds r h
        simp [List.length_cons]
        omega
      · exact absurd h (by simp)

theorem skipClass_length (f : Char → Bool) : ∀ l : List Char,
    (skipClass f l).length ≤ l.length := by
  intro l
  induction l with
  | nil => simp [skipClass]
  | cons c cs ih =>
    simp only [skipClass]
    split
    · exact Nat.le_succ_of_le ih
    · simp

theorem matchClass1_length (f : Char → Bool) : ∀ l r, matchClass1 f l = some r →
    r.length < l.length := by
  intro l r h
  cases l with
  | nil => simp [matchClass1] at h
  | cons c cs =>
    simp only [matchClass1] at h
    split at h
    · cases h
      exact Nat.lt_succ_of_le (skipClass_length f cs)
    · exact absurd h (by simp)

theorem matchKwTail_length (kw : List Char) : ∀ l r, matchKwTail kw l = some r →
    r.length < l.length := by
  intro l r h
  unfold matchKwTail at h
  split at h
  · exact absurd h (by simp)
  · rename_i r1 h1
    split at h
    · exact absurd h (by simp)
    · rename_i r2 h2
      have e1 := matchLit_length kw l r1 h1
      have e2 := matchClass1_length isSpaceChar r1 r2 h2
      have e3 := matchClass1_length isWordChar r2 r h
      omega

theorem matchTail_length : ∀ l r, matchTail l = some r → r.length < l.length := by
  intro l r h
  unfold matchTail at h
  split at h
  · rename_i r1 h1
    cases h
    exact matchKwTail_length _ l r h1
  · exact matchKwTail_length _ l r h

theorem matchAsyncPart_length : ∀ l r, matchAsyncPart l = some r →
    r.length < l.length := by
  intro l r h
  unfold matchAsyncPart at h
  split at h
  · exact absurd h (by simp)
  · rename_i r1 h1
    have e1 := matchLit_length _ l r1 h1
    have e2 := matchClass1_length isSpaceChar r1 r h
    omega

theorem matchCore_length : ∀ l r, matchCore l = some r → r.length < l.length := by
  intro l r h
  unfold matchCore at h
  split at h
  · rename_i ra h1
    split at h
    · rename_i rb h2
      cases h
      have := matchTail_length ra r h2
      have := matchAsyncPart_length l ra h1
      omega
    · exact matchTail_length l r h
  · exact matchTail_length l r h

/-- Number of matches the `g`-flagged `exec` loop finds: scan every offset
left to right, a match may start only where `^` holds, and the scan resumes
after the end of each match (a match always ends in a `\w` character, so the
position after it is never a line start). -/
def countMatchesAux : List Char → Bool → Nat
  | [], _ => 0
  | c :: rest, atStart =>
    if atStart then
      match h : matchCore (c :: rest) with
      | some rem => 1 + countMatchesAux rem false
      | none => countMatchesAux rest (c == '\n')
    else countMatchesAux rest (c == '\n')
termination_by l _ => l.length
decreasing_by
  · exact matchCore_length _ _ h
  · simp
  · simp

/-- Matches of `/^(async\s+)?(function|class)\s+(\w+)/gm` in the document
text, as counted by the provider loop. -/
def countFunctionClassMatches (text : String) : Nat :=
  countMatchesAux text.data true

/-! ### Code-lens provider -/

/-- A code lens as the provider builds it: the character offset its range
starts at (`match.index`, or 0 for the fixed lens) and the command title and
identifier. -/
structure WeaveCodeLens where
  startIndex : Nat
  title : String
  command : String
deriving DecidableEq

/-- The fixed lens pushed at the beginning of the document. -/
def analyzeLens : WeaveCodeLens :=
  { startIndex := 0
    title := "$(lightbulb) Weave: Analyze"
    command := "weave.analyzeCode" }

/-- The optimize lens pushed for a match starting at offset `i`. -/
def optimizeLens (i : Nat) : WeaveCodeLens :=
  { startIndex := i
    title := "$(wand) Weave: Optimize"
    command := "weave.suggestOptimization" }

/-- The `while ((match = functionPattern.exec(...)) !== null)` loop of
CodeLensProvider.provideCodeLenses: for each match found, the cancellation
token is consulted (the `tok` argument gives the answer of its `k`-th read,
counting all reads of the provider call from 0) and, if it fired, the whole
call returns `null`; otherwise an optimize lens is pushed and the scan
resumes after the match. -/
def scanLenses (tok : Nat → Bool) : Nat → Nat → List Char → Bool →
    Option (List WeaveCodeLens)
  | _, _, [], _ => some []
  | k, i, c :: rest, atStart =>
    if atStart then
      match h : matchCore (c :: rest) with
      | some rem =>
        if tok k then none
        else
          (scanLenses tok (k + 1) (i + ((c :: rest).length - rem.length)) rem
            false).map (fun tail => optimizeLens i :: tail)
      | none => scanLenses tok k (i + 1) rest (c == '\n')
    else scanLenses tok k (i + 1) rest (c == '\n')
termination_by _ _ l _ => l.length
decreasing_by
  · exact matchCore_length _ _ h
  · simp
  · simp

/-- CodeLensProvider.provideCodeLenses: `null` if cancellation is already
requested (read 0 of the token); otherwise the fixed analyze lens at the
document start followed by one optimize lens per regex match, with `null`
when the token fires during the scan. -/
def provideCodeLenses (tok : Nat → Bool) (text : String) :
    Option (List WeaveCodeLens) :=
  if tok 0 then none
  else (scanLenses tok 1 0 text.data true).map (fun ls => analyzeLens :: ls)

/-! ### Completion provider -/

/-- How the host triggered the completion request. -/
inductive CompletionTriggerKind
  | invoke
  | triggerCharacter
  | triggerForIncompleteCompletions
deriving DecidableEq

/-- The completion context handed over by the host; `triggerCharacter` is
`none` when the host supplied no character. -/
structure CompletionContext where
  triggerKind : CompletionTriggerKind
  triggerCharacter : Option String
deriving DecidableEq

/-- A completion item with the fields the provider sets. -/
structure CompletionItem where
  label : String
  sortText : String
  detail : String
  documentation : String
deriving DecidableEq

/-- JavaScript falsiness of the optional trigger character: absent or the
empty string. -/
def triggerCharFalsy (cctx : CompletionContext) : Bool :=
  (cctx.triggerCharacter.getD "").isEmpty

/-- CodeCompletionProvider.provideCompletionItems.  `tok k` answers the
`k`-th read of the cancellation token (read 0 at entry, read 1 before the
network suspension, read 2 after it); `word` is the text of the word range
under the cursor, `''` when there is no word range; `completionResult` is
the outcome of `weaveAssistant.generateCompletion` (an exception is caught
and turns into `null`). -/
def provideCompletionItems (tok : Nat → Bool) (word : String)
    (cctx : CompletionContext) (completionResult : Except String String) :
    Option (List CompletionItem) :=
  if tok 0 then none
  else if word.length < 3 then none
  else if cctx.triggerKind == CompletionTriggerKind.triggerCharacter
          && triggerCharFalsy cctx then none
  else if tok 1 then none
  else
    match completionResult with
    | .error _ => none
    | .ok completion =>
      if tok 2 then none
      else
        some [{ label := "Weave: " ++ completion.take 50 ++ "..."
                sortText := "0-weave"
                detail := "AI-powered completion by Weave"
                documentation := "Completion suggested by Weave AI Assistant" }]

/-! ## Theorems -/

instance instDecidableContainsStr (haystack needle : String) :
    Decidable (containsStr haystack needle) :=
  List.decidableInfix needle.data haystack.data

/-- Substring containment from an explicit decomposition. -/
theorem containsStr_intro (haystack needle p q : String)
    (e : haystack = p ++ needle ++ q) : containsStr haystack needle :=
  ⟨p.data, q.data, by rw [e]; simp [String.data_append]⟩

/-- A concrete context used to refute the universal form of the fencing
claim on the `complete` operation. -/
def cexContext : WeaveCodeContext :=
  { code := "alpha\nbeta"
    language := "ts"
    fileName := "a.ts"
    line := 1
    column := 0 }

set_option maxRecDepth 8000 in
/-- C1 counterexample: for the `complete` operation on the two-line code
`"alpha\nbeta"` with the cursor on line 1, the composed user prompt does not
contain the verbatim input code fenced with the language tag — the fence
holds only the first line and the cursor marker. -/
theorem complete_prompt_lacks_verbatim_fenced_code :
    ¬ containsStr (generateCompletionUser cexContext 1)
      (codeFence "ts" "alpha\nbeta") := by
  decide

/-- C1 (amended): for generate-prompt, analyze and suggest-optimization the
composed user prompt contains the verbatim input code in a fence opened with
three backticks and the language tag; for `complete` the prompt instead
contains, in such a fence, exactly the lines strictly before the cursor line
followed by the cursor marker. -/
theorem compose_fences_code (ctx : WeaveCodeContext) (posLine : Nat) :
    containsStr (generatePromptUser ctx) (codeFence ctx.language ctx.code) ∧
    containsStr (analyzeCodeUser ctx) (codeFence ctx.language ctx.code) ∧
    containsStr (suggestOptimizationUser ctx) (codeFence ctx.language ctx.code) ∧
    containsStr (generateCompletionUser ctx posLine)
      ("```" ++ ctx.language ++ "\n" ++ previousLines ctx.code posLine ++
        "\n|CURSOR_HERE|\n```") := by
  refine ⟨?_, ?_, ?_, ?_⟩
  · exact containsStr_intro _ _
      ("Analyze this " ++ ctx.language ++
        " code and generate an optimized prompt that describes it:\n\n")
      "\n\nGenerate a prompt that:\n1. Clearly describes what the code does\n2. Mentions key inputs and outputs\n3. Includes any important constraints or edge cases\n4. Is concise but complete"
      (by unfold generatePromptUser; simp only [String.append_assoc])
  · exact containsStr_intro _ _
      ("Analyze this " ++ ctx.language ++ " code:\n\n")
      "\n\nProvide analysis including:\n1. Code quality assessment\n2. Potential bugs or issues\n3. Performance considerations\n4. Readability and maintainability\n5. Best practice recommendations"
      (by unfold analyzeCodeUser; simp only [String.append_assoc])
  · exact containsStr_intro _ _
      ("Suggest optimizations for this " ++ ctx.language ++ " code:\n\n")
      "\n\nFor each suggestion:\n1. Explain the current inefficiency\n2. Provide the optimized approach\n3. Show a code example if applicable\n4. Estimate the performance improvement if measurable"
      (by unfold suggestOptimizationUser; simp only [String.append_assoc])
  · exact containsStr_intro _ _
      ("Complete this " ++ ctx.language ++ " code based on context:\n\n")
      "\n\nProvide a natural completion that fits the code style and logic."
      (by unfold generateCompletionUser; simp only [String.append_assoc])

/-- C2: the prompt composed by the `complete` operation is built from the
lines strictly before the cursor line only — any two contexts in the same
language whose codes agree on those lines yield the identical prompt, so no
text from the cursor line or the lines after it reaches the prompt. -/
theorem complete_prompt_no_lookahead (ctx ctx' : WeaveCodeContext)
    (posLine : Nat) (hlang : ctx.language = ctx'.language)
    (hpre : (jsSplitNl ctx.code.data).take posLine =
            (jsSplitNl ctx'.code.data).take posLine) :
    generateCompletionUser ctx posLine = generateCompletionUser ctx' posLine := by
  unfold generateCompletionUser previousLines
  rw [hlang, hpre]

/-- Witness for C2 at concrete inputs: two codes sharing the first line but
differing after the cursor produce the same completion prompt. -/
theorem complete_prompt_no_lookahead_witness :
    (jsSplitNl ({ cexContext with code := "alpha\nbeta" } :
        WeaveCodeContext).code.data).take 1 =
      (jsSplitNl ({ cexContext with code := "alpha\nGAMMA" } :
        WeaveCodeContext).code.data).take 1 ∧
    generateCompletionUser { cexContext with code := "alpha\nbeta" } 1 =
      generateCompletionUser { cexContext with code := "alpha\nGAMMA" } 1 :=
  ⟨by decide,
   complete_prompt_no_lookahead _ _ 1 rfl (by decide)⟩

/-- A concrete configuration for counterexamples and witnesses. -/
def cexConfig : WeaveConfigView :=
  { apiKey := "k", provider := ProviderKind.openai, model := "gpt-4" }

/-- A parsed response body with no `content` field at all. -/
def cexBodyNoContent : ApiResponseBody :=
  { content := none, tokensUsed := none, cost := none,
    provider := none, model := none }

/-- C3 counterexample: a parsed response body lacking a string `content`
field does not make the transport call fail — `callWeaveAPI` returns a
successful result whose content defaults to the empty string. -/
theorem transport_missing_content_succeeds :
    callWeaveAPI generatePromptSystem (generatePromptUser cexContext)
      ResultType.analysis cexContext cexConfig
      (HttpOutcome.parsed cexBodyNoContent) =
    Except.ok
      { type := ResultType.analysis
        content := ""
        language := "ts"
        details :=
          { tokensUsed := 0, cost := 0, provider := "openai", model := "gpt-4" } } :=
  rfl

/-- C3 (amended): the transport call fails when the network call fails or
the endpoint returns a non-success status (the HTTP client rejects and the
error propagates); a response body that did parse, however, always yields a
successful result, with every missing field defaulted — in particular a body
lacking a string `content` field yields a success with empty content. -/
theorem transport_error_propagation (sys user : String) (t : ResultType)
    (ctx : WeaveCodeContext) (cfg : WeaveConfigView) :
    (∀ m, callWeaveAPI sys user t ctx cfg (HttpOutcome.networkError m) =
      Except.error m) ∧
    (∀ s m, callWeaveAPI sys user t ctx cfg (HttpOutcome.httpError s m) =
      Except.error m) ∧
    (∀ body, callWeaveAPI sys user t ctx cfg (HttpOutcome.parsed body) =
      Except.ok
        { type := t
          content := body.content.getD ""
          language := ctx.language
          details :=
            { tokensUsed := body.tokensUsed.getD 0
              cost := body.cost.getD 0
              provider := body.provider.getD cfg.provider.asString
              model := body.model.getD cfg.model } }) :=
  ⟨fun _ => rfl, fun _ _ => rfl, fun _ => rfl⟩

/-- C6: with an active editor whose selection is empty, each of the three
code commands emits exactly one user-facing precondition message and nothing
else — no transport call, no panel, no other effect. -/
theorem empty_selection_aborts (env : CommandEnv) (st : AssistantState)
    (cfg : WeaveConfigView) (outcome : HttpOutcome) (ed : EditorState)
    (hed : env.activeEditor = some ed) (hempty : ed.selectionEmpty = true) :
    commandGeneratePrompt env st cfg outcome =
      [Effect.errorMessage "Please select code to generate a prompt for"] ∧
    commandAnalyzeCode env st cfg outcome =
      [Effect.errorMessage "Please select code to analyze"] ∧
    commandSuggestOptimization env st cfg outcome =
      [Effect.errorMessage "Please select code to optimize"] := by
  unfold commandGeneratePrompt commandAnalyzeCode commandSuggestOptimization
  rw [hed]
  simp [hempty]

/-- A concrete editor state with an empty selection. -/
def cexEmptySelEditor : EditorState :=
  { selectionEmpty := true, selectedText := "", languageId := "ts",
    fileName := "a.ts", selStartLine := 0, selStartCol := 0 }

/-- Witness for C6 at a concrete environment. -/
theorem empty_selection_aborts_witness :
    commandAnalyzeCode { activeEditor := some cexEmptySelEditor }
      { isInitialized := true } cexConfig (HttpOutcome.networkError "x") =
      [Effect.errorMessage "Please select code to analyze"] :=
  (empty_selection_aborts { activeEditor := some cexEmptySelEditor }
    { isInitialized := true } cexConfig (HttpOutcome.networkError "x")
    cexEmptySelEditor rfl rfl).2.1

/-- C7: when the transport call fails, each of the three code commands
performs exactly one transport call (no retry), renders no panel, and emits
exactly one user-facing error message whose text contains the underlying
failure reason. -/
theorem transport_failure_single_error (env : CommandEnv) (st : AssistantState)
    (cfg : WeaveConfigView) (outcome : HttpOutcome) (ed : EditorState)
    (msg : String) (hed : env.activeEditor = some ed)
    (hsel : ed.selectionEmpty = false) (hinit : st.isInitialized = true)
    (hfail : outcome.failMsg = some msg) :
    commandGeneratePrompt env st cfg outcome =
      [Effect.transportCall,
       Effect.errorMessage ("Failed to generate prompt: " ++ msg)] ∧
    commandAnalyzeCode env st cfg outcome =
      [Effect.transportCall,
       Effect.errorMessage ("Failed to analyze code: " ++ msg)] ∧
    commandSuggestOptimization env st cfg outcome =
      [Effect.transportCall,
       Effect.errorMessage ("Failed to get suggestions: " ++ msg)] ∧
    containsStr ("Failed to generate prompt: " ++ msg) msg ∧
    containsStr ("Failed to analyze code: " ++ msg) msg ∧
    containsStr ("Failed to get suggestions: " ++ msg) msg := by
  have hc : ∀ pre : String, containsStr (pre ++ msg) msg := fun pre =>
    containsStr_intro _ _ pre "" (by rw [String.append_empty])
  refine ⟨?_, ?_, ?_, hc _, hc _, hc _⟩ <;>
    cases outcome with
    | networkError m =>
      simp only [HttpOutcome.failMsg, Option.some.injEq] at hfail
      subst hfail
      simp [commandGeneratePrompt, commandAnalyzeCode,
        commandSuggestOptimization, hed, hsel, assistantGeneratePrompt,
        assistantAnalyzeCode, assistantSuggestOptimization, runAssistantOp,
        hinit, callWeaveAPI]
    | httpError s m =>
      simp only [HttpOutcome.failMsg, Option.some.injEq] at hfail
      subst hfail
      simp [commandGeneratePrompt, commandAnalyzeCode,
        commandSuggestOptimization, hed, hsel, assistantGeneratePrompt,
        assistantAnalyzeCode, assistantSuggestOptimization, runAssistantOp,
        hinit, callWeaveAPI]
    | parsed body => simp [HttpOutcome.failMsg] at hfail

/-- A concrete editor state with a non-empty selection. -/
def cexSelEditor : EditorState :=
  { selectionEmpty := false, selectedText := "function add(a,b) return a+b",
    languageId := "ts", fileName := "a.ts", selStartLine := 0, selStartCol := 0 }

/-- Witness for C7 at a concrete failing transport outcome. -/
theorem transport_failure_single_error_witness :
    commandAnalyzeCode { activeEditor := some cexSelEditor }
      { isInitialized := true } cexConfig (HttpOutcome.networkError "boom") =
      [Effect.transportCall,
       Effect.errorMessage ("Failed to analyze code: " ++ "boom")] :=
  (transport_failure_single_error { activeEditor := some cexSelEditor }
    { isInitialized := true } cexConfig (HttpOutcome.networkError "boom")
    cexSelEditor "boom" rfl rfl rfl rfl).2.1

/-- C9: toggling the inline-hints flag is an involution on the handler
state — one toggle flips the flag, two toggles restore it, and any even
number of toggles is the identity. -/
theorem toggle_inline_hints_involutive (s : CommandHandlerState) (n : Nat) :
    toggleStep (toggleStep s) = s ∧ toggleStep^[2 * n] s = s := by
  have h2 : ∀ t : CommandHandlerState, toggleStep (toggleStep t) = t := by
    intro t
    obtain ⟨b⟩ := t
    simp [toggleStep, toggleInlineHints]
  refine ⟨h2 s, ?_⟩
  induction n with
  | zero => rfl
  | succ k ih =>
    rw [Nat.mul_succ, Function.iterate_add_apply]
    have hs2 : toggleStep^[2] s = s := by
      simp [Function.iterate_succ_apply', h2 s]
    rw [hs2, ih]

/-- C10: disposing the assistant returns it to the uninitialized state —
afterwards every operation throws the `WeaveAssistant not initialized` error
without any transport call, until a successful initialize produces an
initialized state again, on which every operation proceeds to its single
transport call as usual. -/
theorem dispose_resets_assistant (st : AssistantState) :
    (∀ (ctx : WeaveCodeContext) (cfg : WeaveConfigView) (outcome : HttpOutcome)
        (posLine : Nat),
      assistantGeneratePrompt (disposeAssistant st) ctx cfg outcome =
        ([], Except.error "WeaveAssistant not initialized") ∧
      assistantAnalyzeCode (disposeAssistant st) ctx cfg outcome =
        ([], Except.error "WeaveAssistant not initialized") ∧
      assistantSuggestOptimization (disposeAssistant st) ctx cfg outcome =
        ([], Except.error "WeaveAssistant not initialized") ∧
      assistantGenerateCompletion (disposeAssistant st) ctx posLine cfg outcome =
        ([], Except.error "WeaveAssistant not initialized") ∧
      assistantGenerateDocumentation (disposeAssistant st) ctx cfg outcome =
        ([], Except.error "WeaveAssistant not initialized")) ∧
    (∀ (cfg : WeaveConfigView) (st' : AssistantState),
      initializeAssistant cfg (disposeAssistant st) = Except.ok st' →
      st'.isInitialized = true ∧
      ∀ (ctx : WeaveCodeContext) (cfg2 : WeaveConfigView)
          (outcome : HttpOutcome) (posLine : Nat),
        assistantGeneratePrompt st' ctx cfg2 outcome =
          ([Effect.transportCall],
           callWeaveAPI generatePromptSystem (generatePromptUser ctx)
             ResultType.analysis ctx cfg2 outcome) ∧
        assistantAnalyzeCode st' ctx cfg2 outcome =
          ([Effect.transportCall],
           callWeaveAPI analyzeCodeSystem (analyzeCodeUser ctx)
             ResultType.analysis ctx cfg2 outcome) ∧
        assistantSuggestOptimization st' ctx cfg2 outcome =
          ([Effect.transportCall],
           callWeaveAPI suggestOptimizationSystem (suggestOptimizationUser ctx)
             ResultType.suggestion ctx cfg2 outcome) ∧
        assistantGenerateCompletion st' ctx posLine cfg2 outcome =
          ([Effect.transportCall],
           (callWeaveAPI generateCompletionSystem
             (generateCompletionUser ctx posLine) ResultType.completion ctx
             cfg2 outcome).map (fun res => res.content)) ∧
        assistantGenerateDocumentation st' ctx cfg2 outcome =
          ([Effect.transportCall],
           (callWeaveAPI generateDocumentationSystem
             (generateDocumentationUser ctx) ResultType.analysis ctx cfg2
             outcome).map (fun res => res.content))) := by
  constructor
  · intro ctx cfg outcome posLine
    refine ⟨rfl, rfl, rfl, rfl, rfl⟩
  · intro cfg st' h
    unfold initializeAssistant at h
    split at h
    · exact absurd h (by simp)
    · cases h
      exact ⟨rfl, fun ctx cfg2 outcome posLine => ⟨rfl, rfl, rfl, rfl, rfl⟩⟩

/-- A configuration that lets initialize succeed without an API key. -/
def localConfig : WeaveConfigView :=
  { apiKey := "", provider := ProviderKind.local, model := "gpt-4" }

/-- Witness for C10: a concrete disposed assistant, re-initialized with the
local provider, runs analyzeCode with one transport call again. -/
theorem dispose_resets_assistant_witness :
    initializeAssistant localConfig (disposeAssistant { isInitialized := true }) =
      Except.ok { isInitialized := true } ∧
    assistantAnalyzeCode { isInitialized := true } cexContext cexConfig
      (HttpOutcome.networkError "boom") =
      ([Effect.transportCall],
       callWeaveAPI analyzeCodeSystem (analyzeCodeUser cexContext)
         ResultType.analysis cexContext cexConfig
         (HttpOutcome.networkError "boom")) :=
  ⟨rfl,
   (((dispose_resets_assistant { isInitialized := true }).2 localConfig
      { isInitialized := true } rfl).2 cexContext cexConfig
      (HttpOutcome.networkError "boom") 0).2.1⟩

/-- C4: the completion provider returns no candidates when the word under
the cursor is shorter than three characters; and when no cancellation check
fires, the trigger is not a bare trigger-character event and the completion
call succeeds, it returns exactly one candidate, labelled with the first 50
characters of the result content. -/
theorem completion_provider_single_item :
    (∀ (tok : Nat → Bool) (word : String) (cctx : CompletionContext)
        (res : Except String String), word.length < 3 →
      provideCompletionItems tok word cctx res = none) ∧
    (∀ (tok : Nat → Bool) (word : String) (cctx : CompletionContext)
        (content : String), 3 ≤ word.length → (∀ i, tok i = false) →
      (cctx.triggerKind == CompletionTriggerKind.triggerCharacter
        && triggerCharFalsy cctx) = false →
      provideCompletionItems tok word cctx (Except.ok content) =
        some [{ label := "Weave: " ++ content.take 50 ++ "..."
                sortText := "0-weave"
                detail := "AI-powered completion by Weave"
                documentation := "Completion suggested by Weave AI Assistant" }]) := by
  constructor
  · intro tok word cctx res hlt
    simp [provideCompletionItems, hlt]
  · intro tok word cctx content hge htok hbare
    have h3 : ¬ word.length < 3 := by omega
    simp [provideCompletionItems, h3, hbare, htok 0, htok 1, htok 2]

/-- Witness for C4 at a concrete four-character word and result content. -/
theorem completion_provider_single_item_witness :
    3 ≤ ("word" : String).length ∧
    provideCompletionItems (fun _ => false) "word"
      { triggerKind := CompletionTriggerKind.invoke, triggerCharacter := none }
      (Except.ok "abc") =
      some [{ label := "Weave: " ++ ("abc" : String).take 50 ++ "..."
              sortText := "0-weave"
              detail := "AI-powered completion by Weave"
              documentation := "Completion suggested by Weave AI Assistant" }] :=
  ⟨by decide,
   completion_provider_single_item.2 (fun _ => false) "word"
     { triggerKind := CompletionTriggerKind.invoke, triggerCharacter := none }
     "abc" (by decide) (fun _ => rfl) (by decide)⟩

/-- Unfolding: the match count of the empty text. -/
theorem countMatchesAux_nil (b : Bool) : countMatchesAux [] b = 0 := by
  simp only [countMatchesAux]

/-- Unfolding: no match can start off a line start; the scan advances. -/
theorem countMatchesAux_cons_false (c : Char) (rest : List Char) :
    countMatchesAux (c :: rest) false = countMatchesAux rest (c == '\n') := by
  simp only [countMatchesAux]
  simp

/-- Unfolding: at a line start without a match the scan advances. -/
theorem countMatchesAux_cons_none (c : Char) (rest : List Char)
    (hm : matchCore (c :: rest) = none) :
    countMatchesAux (c :: rest) true = countMatchesAux rest (c == '\n') := by
  simp only [countMatchesAux]
  split
  · split
    · rename_i rem hmm
      rw [hm] at hmm
      exact absurd hmm (by simp)
    · rfl
  · rename_i hfalse
    exact absurd (by trivial) hfalse

/-- Unfolding: at a line start with a match the scan counts it and resumes
after it. -/
theorem countMatchesAux_cons_some (c : Char) (rest rem : List Char)
    (hm : matchCore (c :: rest) = some rem) :
    countMatchesAux (c :: rest) true = 1 + countMatchesAux rem false := by
  simp only [countMatchesAux]
  split
  · split
    · rename_i rem2 hmm
      rw [hm] at hmm
      injection hmm with he
      rw [he]
    · rename_i hmm
      rw [hm] at hmm
      exact absurd hmm (by simp)
  · rename_i hfalse
    exact absurd (by trivial) hfalse

/-- Unfolding: the lens scan of the empty text. -/
theorem scanLenses_nil (tok : Nat → Bool) (k i : Nat) (b : Bool) :
    scanLenses tok k i [] b = some [] := by
  simp only [scanLenses]

/-- Unfolding: the lens scan off a line start. -/
theorem scanLenses_cons_false (tok : Nat → Bool) (k i : Nat) (c : Char)
    (rest : List Char) :
    scanLenses tok k i (c :: rest) false =
      scanLenses tok k (i + 1) rest (c == '\n') := by
  simp only [scanLenses]
  simp

/-- Unfolding: the lens scan at a line start without a match. -/
theorem scanLenses_cons_none (tok : Nat → Bool) (k i : Nat) (c : Char)
    (rest : List Char) (hm : matchCore (c :: rest) = none) :
    scanLenses tok k i (c :: rest) true =
      scanLenses tok k (i + 1) rest (c == '\n') := by
  simp only [scanLenses]
  split
  · split
    · rename_i rem hmm
      rw [hm] at hmm
      exact absurd hmm (by simp)
    · rfl
  · rename_i hfalse
    exact absurd (by trivial) hfalse

/-- Unfolding: the lens scan at a line start with a match consults the
token, then pushes an optimize lens and resumes after the match. -/
theorem scanLenses_cons_some (tok : Nat → Bool) (k i : Nat) (c : Char)
    (rest rem : List Char) (hm : matchCore (c :: rest) = some rem) :
    scanLenses tok k i (c :: rest) true =
      if tok k then none
      else
        (scanLenses tok (k + 1) (i + ((c :: rest).length - rem.length)) rem
          false).map (fun tail => optimizeLens i :: tail) := by
  simp only [scanLenses]
  split
  · split
    · rename_i rem2 hmm
      rw [hm] at hmm
      injection hmm with he
      rw [he]
    · rename_i hmm
      rw [hm] at hmm
      exact absurd hmm (by simp)
  · rename_i hfalse
    exact absurd (by trivial) hfalse

/-- When no read of the cancellation token fires, the lens scan succeeds and
produces exactly one optimize lens per regex match. -/
theorem scanLenses_no_cancel (tok : Nat → Bool) (htok : ∀ i, tok i = false) :
    ∀ (n : Nat) (l : List Char), l.length ≤ n → ∀ (atStart : Bool) (k i : Nat),
    ∃ ls : List WeaveCodeLens, scanLenses tok k i l atStart = some ls ∧
      ls.length = countMatchesAux l atStart ∧
      ∀ x ∈ ls, x.command = "weave.suggestOptimization" := by
  intro n
  induction n with
  | zero =>
    intro l hl atStart k i
    have hnil : l = [] := by
      cases l with
      | nil => rfl
      | cons c rest => simp at hl
    subst hnil
    exact ⟨[], scanLenses_nil tok k i atStart,
      by rw [countMatchesAux_nil]; rfl, by simp⟩
  | succ m ih =>
    intro l hl atStart k i
    cases l with
    | nil =>
      exact ⟨[], scanLenses_nil tok k i atStart,
      by rw [countMatchesAux_nil]; rfl, by simp⟩
    | cons c rest =>
      have hrest : rest.length ≤ m := by simp at hl; omega
      cases atStart with
      | false =>
        rw [scanLenses_cons_false, countMatchesAux_cons_false]
        exact ih rest hrest (c == '\n') k (i + 1)
      | true =>
        cases hm : matchCore (c :: rest) with
        | none =>
          rw [scanLenses_cons_none tok k i c rest hm,
            countMatchesAux_cons_none c rest hm]
          exact ih rest hrest (c == '\n') k (i + 1)
        | some rem =>
          have hrem : rem.length ≤ m := by
            have hlt := matchCore_length _ _ hm
            simp only [List.length_cons] at hlt hl
            omega
          obtain ⟨tail, htail, hlen, hcmd⟩ := ih rem hrem false (k + 1)
            (i + ((c :: rest).length - rem.length))
          refine ⟨optimizeLens i :: tail, ?_, ?_, ?_⟩
          · rw [scanLenses_cons_some tok k i c rest rem hm]
            simp only [List.length_cons] at htail
            simp [htok k, htail]
          · rw [countMatchesAux_cons_some c rest rem hm]
            simp [hlen, Nat.add_comm]
          · intro x hx
            rcases List.mem_cons.mp hx with h | h
            · subst h; rfl
            · exact hcmd x h

/-- If the token fires at one of the reads the scan will perform (read `k`
happens at the first match found, `k + d` at the `d`-th one after it), the
scan returns `null`. -/
theorem scanLenses_cancel (tok : Nat → Bool) :
    ∀ (n : Nat) (l : List Char), l.length ≤ n → ∀ (atStart : Bool) (k i d : Nat),
      d < countMatchesAux l atStart → tok (k + d) = true →
      scanLenses tok k i l atStart = none := by
  intro n
  induction n with
  | zero =>
    intro l hl atStart k i d hd _
    have hnil : l = [] := by
      cases l with
      | nil => rfl
      | cons c rest => simp at hl
    subst hnil
    rw [countMatchesAux_nil] at hd
    omega
  | succ m ih =>
    intro l hl atStart k i d hd htok
    cases l with
    | nil => rw [countMatchesAux_nil] at hd; omega
    | cons c rest =>
      have hrest : rest.length ≤ m := by simp at hl; omega
      cases atStart with
      | false =>
        rw [countMatchesAux_cons_false] at hd
        rw [scanLenses_cons_false]
        exact ih rest hrest (c == '\n') k (i + 1) d hd htok
      | true =>
        cases hm : matchCore (c :: rest) with
        | none =>
          rw [countMatchesAux_cons_none c rest hm] at hd
          rw [scanLenses_cons_none tok k i c rest hm]
          exact ih rest hrest (c == '\n') k (i + 1) d hd htok
        | some rem =>
          rw [countMatchesAux_cons_some c rest rem hm] at hd
          rw [scanLenses_cons_some tok k i c rest rem hm]
          cases d with
          | zero =>
            simp at htok
            simp [htok]
          | succ d' =>
            by_cases hk : tok k = true
            · simp [hk]
            · have hrem : rem.length ≤ m := by
                have hlt := matchCore_length _ _ hm
                simp only [List.length_cons] at hlt hl
                omega
              have htok' : tok ((k + 1) + d') = true := by
                have he : (k + 1) + d' = k + (d' + 1) := by omega
                rw [he]
                exact htok
              have hd' : d' < countMatchesAux rem false := by omega
              rw [if_neg hk, ih rem hrem false (k + 1)
                (i + ((c :: rest).length - rem.length)) d' hd' htok']
              rfl

/-- C5: absent cancellation, the code-lens provider returns the fixed
analyze lens anchored at the document start followed by exactly one optimize
lens per match of the function/class regex — `1 + N` lenses in total, and
exactly one lens for a text with zero matches. -/
theorem codeLens_one_plus_matches (text : String) :
    ∃ ls : List WeaveCodeLens,
      provideCodeLenses (fun _ => false) text = some (analyzeLens :: ls) ∧
      ls.length = countFunctionClassMatches text ∧
      ∀ x ∈ ls, x.command = "weave.suggestOptimization" := by
  obtain ⟨ls, hs, hlen, hcmd⟩ := scanLenses_no_cancel (fun _ => false)
    (fun _ => rfl) text.data.length text.data le_rfl true 1 0
  exact ⟨ls, by simp [provideCodeLenses, hs], hlen, hcmd⟩

/-- C8: if the cancellation signal is set at any point the provider checks —
for completion the entry check, the check before the network suspension or
the one after it; for code lenses the entry check or any of the per-match
checks — the provider returns the empty result (`null`). -/
theorem cancellation_returns_empty :
    (∀ (tok : Nat → Bool) (word : String) (cctx : CompletionContext)
        (res : Except String String),
      tok 0 = true ∨ tok 1 = true ∨ tok 2 = true →
      provideCompletionItems tok word cctx res = none) ∧
    (∀ (tok : Nat → Bool) (text : String) (k : Nat),
      k ≤ countFunctionClassMatches text → tok k = true →
      provideCodeLenses tok text = none) := by
  constructor
  · intro tok word cctx res h
    rcases h with h | h | h <;> cases res <;>
      simp [provideCompletionItems, h]
  · intro tok text k hk htok
    cases k with
    | zero => simp [provideCodeLenses, htok]
    | succ j =>
      by_cases h0 : tok 0 = true
      · simp [provideCodeLenses, h0]
      · have hd : j < countMatchesAux text.data true := hk
        have htok' : tok (1 + j) = true := by
          have : 1 + j = j + 1 := by omega
          rw [this]
          exact htok
        simp [provideCodeLenses, h0,
          scanLenses_cancel tok text.data.length text.data le_rfl true 1 0 j
            hd htok']

/-- Witness for C8: with a token that has already fired, both providers
return the empty result on concrete inputs. -/
theorem cancellation_returns_empty_witness :
    provideCompletionItems (fun _ => true) "word"
      { triggerKind := CompletionTriggerKind.invoke, triggerCharacter := none }
      (Except.ok "abc") = none ∧
    provideCodeLenses (fun _ => true) "function foo()" = none :=
  ⟨cancellation_returns_empty.1 (fun _ => true) "word"
     { triggerKind := CompletionTriggerKind.invoke, triggerCharacter := none }
     (Except.ok "abc") (Or.inl rfl),
   cancellation_returns_empty.2 (fun _ => true) "function foo()" 0
     (Nat.zero_le _) rfl⟩

end Weave
